import Mathlib

/-!
Shallow embedding of `DMN_Data.py` (DarkMatterNet data pipeline).

A pandas DataFrame is modelled as a `Table`: a fixed ordered list of column
names together with rows, where each row is an index label (the pandas
RangeIndex label assigned at load time) paired with the list of cell values
(all numeric, modelled as `ℚ`).  `raw_dataframe` reads fixed-schema CSV
files, so the embedding of `load_data` takes the raw cell rows of the two
files and assigns the fixed schemas positionally, labelling rows 0,1,2,…
exactly as pandas' default RangeIndex does.

`DataFrame.sample(frac=f, random_state=seed)` draws `round(f * len)` rows
without replacement (Python banker's rounding), errors when `f > 1` or the
rounded count is negative, and returns the drawn rows in the random draw
order.  The RNG internals are an external library; they are modelled by a
concrete deterministic generator (`lcg`/`pickIdx`) driven by the seed, with
an explicit `entropy` argument standing for the OS entropy consumed when
`seed is None` (the code calls `np.random.seed(seed)` and passes
`random_state=seed`, so a concrete seed makes the draw reproducible).
-/

namespace DMN

set_option maxRecDepth 40000

/-- A pandas DataFrame: ordered column names plus rows; each row is its
integer index label paired with its cell values. -/
structure Table where
  cols : List String
  rows : List (Nat × List ℚ)
  deriving Repr, DecidableEq

/-- The list `ILLUSTRIS_COLUMN_NAMES` from `DMN_Data.py`: the positional schema
assigned to the Illustris CSV. -/
def ILLUSTRIS_COLUMN_NAMES : List String :=
  ["Pre_Drop_Index",
   "SubhaloBHMass",
   "SubhaloBHMdot",
   "SubhaloGasMetallicity",
   "SubhaloGasMetallicityHalfRad",
   "SubhaloGasMetallicityMaxRad",
   "SubhaloGasMetallicitySfr",
   "SubhaloGasMetallicitySfrWeighted",
   "SubhaloGrNr",
   "SubhaloHalfmassRad",
   "SubhaloIDMostbound",
   "SubhaloLen",
   "SubhaloMass",
   "SubhaloMassInHalfRad",
   "SubhaloMassInMaxRad",
   "SubhaloMassInRad",
   "SubhaloParent",
   "SubhaloSFR",
   "SubhaloSFRinHalfRad",
   "SubhaloSFRinMaxRad",
   "SubhaloSFRinRad",
   "SubhaloStarMetallicity",
   "SubhaloStarMetallicityHalfRad",
   "SubhaloStarMetallicityMaxRad",
   "SubhaloStellarPhotometricsMassInRad",
   "SubhaloStellarPhotometricsRad",
   "SubhaloVelDisp",
   "SubhaloVmax",
   "SubhaloVmaxRad",
   "SubhaloWindMass",
   "SubhaloSublinkID",
   "SubhaloHalfmassRadType0",
   "SubhaloHalfmassRadType1",
   "SubhaloHalfmassRadType2",
   "SubhaloHalfmassRadType3",
   "SubhaloHalfmassRadType4",
   "SubhaloHalfmassRadType5",
   "SubhaloMassInHalfRadType0",
   "SubhaloMassInHalfRadType1",
   "SubhaloMassInHalfRadType2",
   "SubhaloMassInHalfRadType3",
   "SubhaloMassInHalfRadType4",
   "SubhaloMassInHalfRadType5",
   "SubhaloMassInMaxRadType0",
   "SubhaloMassInMaxRadType1",
   "SubhaloMassInMaxRadType2",
   "SubhaloMassInMaxRadType3",
   "SubhaloMassInMaxRadType4",
   "SubhaloMassInMaxRadType5",
   "SubhaloMassInRadType0",
   "SubhaloMassInRadType1",
   "SubhaloMassInRadType2",
   "SubhaloMassInRadType3",
   "SubhaloMassInRadType4",
   "SubhaloMassInRadType5",
   "SubhaloMassType0",
   "SubhaloMassType1",
   "SubhaloMassType2",
   "SubhaloMassType3",
   "SubhaloMassType4",
   "SubhaloMassType5",
   "SubhaloStellarPhotometricsU",
   "SubhaloStellarPhotometricsB",
   "SubhaloStellarPhotometricsV",
   "SubhaloStellarPhotometricsK",
   "SubhaloStellarPhotometricsg",
   "SubhaloStellarPhotometricsr",
   "SubhaloStellarPhotometricsi",
   "SubhaloStellarPhotometricsz",
   "SubhaloID",
   "B300",
   "B1000",
   "TotalSFRMass"]

/-- The list `NYU_COLUMN_NAMES` from `DMN_Data.py`: the positional schema assigned
to the NYU CSV. -/
def NYU_COLUMN_NAMES : List String :=
  ["Pre_Drop_Index",
   "SubhaloMassInRadType4",
   "SubhaloGasMetallicity",
   "B300",
   "B1000"]

/-- Position of a named column in a table's schema (length if absent). -/
def colIdx (t : Table) (name : String) : Nat :=
  t.cols.findIdx (· == name)

/-- Read the cell at column position `i` of a row's values. -/
def getCell (r : List ℚ) (i : Nat) : ℚ :=
  r.getD i 0

/-- Embedding of `df.col /= d`: divide one column by a constant, in place. -/
def divCol (t : Table) (name : String) (d : ℚ) : Table :=
  let i := colIdx t name
  ⟨t.cols, t.rows.map fun e => (e.1, e.2.set i (getCell e.2 i / d))⟩

/-- Embedding of `df.a -= df.b`: subtract column `b` from column `a`, in place. -/
def subCols (t : Table) (a b : String) : Table :=
  let i := colIdx t a
  let j := colIdx t b
  ⟨t.cols, t.rows.map fun e => (e.1, e.2.set i (getCell e.2 i - getCell e.2 j))⟩

/-- Embedding of `df.drop(df[df.name < c].index)`: drop every row whose value in the
named column is `< c`. -/
def dropLT (t : Table) (name : String) (c : ℚ) : Table :=
  let i := colIdx t name
  ⟨t.cols, t.rows.filter fun e => !decide (getCell e.2 i < c)⟩

/-- Embedding of `df.drop(df[df.name >= c].index)`: drop every row whose value in the
named column is `≥ c`. -/
def dropGE (t : Table) (name : String) (c : ℚ) : Table :=
  let i := colIdx t name
  ⟨t.cols, t.rows.filter fun e => !decide (c ≤ getCell e.2 i)⟩

/-- Embedding of `df.pop(name)`: remove the named column, returning the remaining
feature table and the removed column's values (aligned with the rows).
A missing column is a KeyError. -/
def pop (t : Table) (name : String) : Except String (Table × List ℚ) :=
  match t.cols.findIdx? (· == name) with
  | none => .error "KeyError"
  | some i =>
      .ok (⟨t.cols.eraseIdx i, t.rows.map fun e => (e.1, e.2.eraseIdx i)⟩,
           t.rows.map fun e => getCell e.2 i)

/-- The Illustris DataFrame produced by `raw_dataframe`: raw CSV cell rows
with the fixed schema assigned positionally and RangeIndex labels 0,1,2,… -/
def iTable (cells : List (List ℚ)) : Table :=
  ⟨ILLUSTRIS_COLUMN_NAMES, cells.enum⟩

/-- The NYU DataFrame produced by `raw_dataframe`. -/
def nTable (cells : List (List ℚ)) : Table :=
  ⟨NYU_COLUMN_NAMES, cells.enum⟩

/-- Line 123: `iData.SubhaloMassInRadType4 -= iData.SubhaloWindMass`. -/
def iData_corrected (cells : List (List ℚ)) : Table :=
  subCols (iTable cells) "SubhaloMassInRadType4" "SubhaloWindMass"

/-- Line 126: drop Illustris rows with negative corrected stellar mass. -/
def iData_stell_cut (cells : List (List ℚ)) : Table :=
  dropLT (iData_corrected cells) "SubhaloMassInRadType4" 0

/-- Line 129: drop Illustris rows with `SubhaloMassInRad < 0.1`. -/
def iData_halo_cut (cells : List (List ℚ)) : Table :=
  dropLT (iData_stell_cut cells) "SubhaloMassInRad" (1/10)

/-- Line 120: `nData.SubhaloMassInRadType4 /= 10**10`. -/
def nData_conv (cells : List (List ℚ)) : Table :=
  divCol (nTable cells) "SubhaloMassInRadType4" (10 ^ 10)

/-- Line 133: drop NYU rows with converted stellar mass `< 0.0000001`. -/
def nData_stell_cut (cells : List (List ℚ)) : Table :=
  dropLT (nData_conv cells) "SubhaloMassInRadType4" (1 / 10 ^ 7)

/-- Line 137: drop NYU rows with converted stellar mass `≥ 150`. -/
def nData_stell_top_cut (cells : List (List ℚ)) : Table :=
  dropGE (nData_stell_cut cells) "SubhaloMassInRadType4" 150

/-- Python `round` (banker's rounding, half to even) on a rational. -/
def pyRound (q : ℚ) : Int :=
  let f : Int := q.floor
  let r : ℚ := q - (f : ℚ)
  if r < 1/2 then f
  else if 1/2 < r then f + 1
  else if f % 2 = 0 then f else f + 1

/-- The number of rows pandas `sample(frac=frac)` draws from `len` rows,
or the error it raises: `frac > 1` needs `replace=True`, and a negative
rounded count is refused. -/
def sampleCount (frac : ℚ) (len : Nat) : Except String Int :=
  if 1 < frac then
    .error "Replace has to be set to True when upsampling the population frac greater than 1"
  else
    let n := pyRound (frac * (len : ℚ))
    if n < 0 then .error "A negative number of rows requested" else .ok n

/-- A 32-bit linear congruential step: the concrete stand-in for the
sampling RNG (the RNG internals are outside this repository). -/
def lcg (x : Nat) : Nat :=
  (x * 1664525 + 1013904223) % 2 ^ 32

/-- Draw `k` positions without replacement from the remaining position
list, in random draw order. -/
def pickIdx : Nat → List Nat → Nat → List Nat
  | _, _, 0 => []
  | _, [], _ + 1 => []
  | st, a :: rs, k + 1 =>
      let st' := lcg st
      let j := st' % (a :: rs).length
      (a :: rs).getD j 0 :: pickIdx st' ((a :: rs).eraseIdx j) k

/-- The row positions `sample` draws: `k` of `0,…,n-1`, in draw order. -/
def sampleIdx (st k n : Nat) : List Nat :=
  pickIdx st (List.range n) k

/-- The RNG state the split actually uses: the caller's seed when one is
given, otherwise OS entropy (`np.random.seed(None)` path). -/
def mix (seed : Option Nat) (entropy : Nat) : Nat :=
  match seed with
  | some s => s
  | none => entropy

/-- Lines 140-142: `train = filtered.sample(frac, random_state)` and
`test = filtered.drop(train.index)`.  Returns the (pre-pop) Train and
Test DataFrames. -/
def splitTables (iCells : List (List ℚ)) (frac : ℚ) (st : Nat) :
    Except String (Table × Table) :=
  let F := iData_halo_cut iCells
  match sampleCount frac F.rows.length with
  | .error e => .error e
  | .ok k =>
      let ps := sampleIdx st k.toNat F.rows.length
      let trRows := ps.filterMap fun p => F.rows.get? p
      let tr : Table := ⟨F.cols, trRows⟩
      let te : Table :=
        ⟨F.cols, F.rows.filter fun e => !decide (e.1 ∈ trRows.map Prod.fst)⟩
      .ok (tr, te)

/-- The function `load_data` from `DMN_Data.py`, over the raw cell rows of the two CSV
files.  Defaults mirror the Python signature
`load_data(label_name='SubhaloMassInRad', train_fraction=0.8, seed=None)`;
`entropy` stands for the OS entropy consumed only when `seed` is absent. -/
def load_data (iCells nCells : List (List ℚ))
    (label_name : String := "SubhaloMassInRad")
    (train_fraction : ℚ := 8/10)
    (seed : Option Nat := none) (entropy : Nat := 0) :
    Except String ((Table × List ℚ) × (Table × List ℚ) × Table) :=
  match splitTables iCells train_fraction (mix seed entropy) with
  | .error e => .error e
  | .ok (trainT, testT) =>
      match pop trainT label_name with
      | .error e => .error e
      | .ok (train_features, train_label) =>
          match pop testT label_name with
          | .error e => .error e
          | .ok (test_features, test_label) =>
              .ok ((train_features, train_label), (test_features, test_label),
                   nData_stell_top_cut nCells)

/-- One element of the TF Dataset built by `make_dataset`: a mapping from
column name to scalar value, with the scalar label when one is supplied. -/
inductive DSElem where
  | featOnly (record : List (String × ℚ))
  | featLab (record : List (String × ℚ)) (lab : ℚ)
  deriving Repr, DecidableEq

/-- The function `make_dataset` from `DMN_Data.py`: `tf.data.Dataset.from_tensor_slices`
over the feature dict (paired with the label column when present), as the
finite sequence of its per-row elements in row order. -/
def make_dataset (features : Table) (label : Option (List ℚ)) : List DSElem :=
  match label with
  | none => features.rows.map fun e => .featOnly (features.cols.zip e.2)
  | some ls =>
      (features.rows.zip ls).map fun p => .featLab (features.cols.zip p.1.2) p.2

/-! Concrete example inputs used to exercise the pipeline. -/

/-- An Illustris CSV row with the given raw `SubhaloMassInRadType4`,
`SubhaloWindMass` and `SubhaloMassInRad` values and zeros elsewhere. -/
def mkIRow (t4 wind mir : ℚ) : List ℚ :=
  (((List.replicate 73 (0:ℚ)).set (colIdx (iTable []) "SubhaloMassInRadType4") t4).set
    (colIdx (iTable []) "SubhaloWindMass") wind).set
    (colIdx (iTable []) "SubhaloMassInRad") mir

/-- The spec's worked Illustris example rows: wind 2 with raw stellar 5
(kept), and wind 6 with raw stellar 5 (dropped). -/
def exKeepDrop : List (List ℚ) := [mkIRow 5 2 1, mkIRow 5 6 1]

/-- Two filter-surviving Illustris rows. -/
def iPairEx : List (List ℚ) := [mkIRow 0 0 1, mkIRow 0 0 1]

/-- The spec's worked NYU example rows: raw stellar masses 2e10, 5e-6
and 2e12. -/
def nEx : List (List ℚ) :=
  [[0, 2 * 10 ^ 10, 0, 0, 0], [1, 5 / 10 ^ 6, 0, 0, 0], [2, 2 * 10 ^ 12, 0, 0, 0]]

/-- The output of a concrete successful `load_data` run on `iPairEx` with
`train_fraction = 1` and seed 0. -/
def exFullOut : (Table × List ℚ) × (Table × List ℚ) × Table :=
  (load_data iPairEx [] "SubhaloMassInRad" 1 (some 0) 0).toOption.getD
    ((⟨[], []⟩, []), ((⟨[], []⟩, []), ⟨[], []⟩))

/-- The output of a concrete successful `load_data` run on one kept row
with the Python defaults. -/
def exTrainOut : (Table × List ℚ) × (Table × List ℚ) × Table :=
  (load_data [mkIRow 5 2 1] []).toOption.getD
    ((⟨[], []⟩, []), ((⟨[], []⟩, []), ⟨[], []⟩))

/-- The pre-pop Train/Test split of the same concrete run. -/
def exSplitPair : Table × Table :=
  (splitTables [mkIRow 5 2 1] (8/10) 0).toOption.getD (⟨[], []⟩, ⟨[], []⟩)

/-- The output of a concrete successful `load_data` run with one NYU row
of raw stellar mass 2e10. -/
def nExOut : (Table × List ℚ) × (Table × List ℚ) × Table :=
  (load_data [] [[0, 2 * 10 ^ 10, 0, 0, 0]]).toOption.getD
    ((⟨[], []⟩, []), ((⟨[], []⟩, []), ⟨[], []⟩))

/-- A one-row, one-column feature table for exercising `make_dataset`. -/
def dsT : Table := ⟨["SubhaloMass"], [(0, [5])]⟩

/-- A matching one-element label sequence. -/
def dsL : List ℚ := [7]

/-! Helper lemmas about the embedded operations. -/

theorem mem_dropLT_rows {t : Table} {n : String} {c : ℚ} {e : Nat × List ℚ} :
    e ∈ (dropLT t n c).rows ↔ e ∈ t.rows ∧ c ≤ getCell e.2 (colIdx t n) := by
  simp [dropLT, List.mem_filter, not_lt]

theorem mem_dropGE_rows {t : Table} {n : String} {c : ℚ} {e : Nat × List ℚ} :
    e ∈ (dropGE t n c).rows ↔ e ∈ t.rows ∧ getCell e.2 (colIdx t n) < c := by
  simp [dropGE, List.mem_filter, not_le]

theorem map_fst_reindex (rows : List (Nat × List ℚ)) (i : Nat) :
    (rows.map fun e => (e.1, e.2.eraseIdx i)).map Prod.fst = rows.map Prod.fst := by
  induction rows with
  | nil => rfl
  | cons a l ih => simp [ih]

theorem splitTables_inv {iCells : List (List ℚ)} {frac : ℚ} {st : Nat} {tr te : Table}
    (h : splitTables iCells frac st = .ok (tr, te)) :
    tr.cols = ILLUSTRIS_COLUMN_NAMES ∧ te.cols = ILLUSTRIS_COLUMN_NAMES ∧
    (∃ k, tr.rows = (sampleIdx st k (iData_halo_cut iCells).rows.length).filterMap
        fun p => (iData_halo_cut iCells).rows.get? p) ∧
    te.rows = (iData_halo_cut iCells).rows.filter
        fun e => !decide (e.1 ∈ tr.rows.map Prod.fst) := by
  simp only [splitTables] at h
  cases hsc : sampleCount frac (iData_halo_cut iCells).rows.length with
  | error e => rw [hsc] at h; simp at h
  | ok k =>
      rw [hsc] at h
      simp only [Except.ok.injEq, Prod.mk.injEq] at h
      obtain ⟨h1, h2⟩ := h
      subst h1; subst h2
      exact ⟨rfl, rfl, ⟨k.toNat, rfl⟩, rfl⟩

theorem load_data_inv {iCells nCells : List (List ℚ)} {lbl : String} {frac : ℚ}
    {seed : Option Nat} {entropy : Nat}
    {out : (Table × List ℚ) × (Table × List ℚ) × Table}
    (h : load_data iCells nCells lbl frac seed entropy = .ok out) :
    ∃ tr te i,
      splitTables iCells frac (mix seed entropy) = .ok (tr, te) ∧
      ILLUSTRIS_COLUMN_NAMES.findIdx? (· == lbl) = some i ∧
      out = ((⟨ILLUSTRIS_COLUMN_NAMES.eraseIdx i,
               tr.rows.map fun e => (e.1, e.2.eraseIdx i)⟩,
              tr.rows.map fun e => getCell e.2 i),
             ((⟨ILLUSTRIS_COLUMN_NAMES.eraseIdx i,
                te.rows.map fun e => (e.1, e.2.eraseIdx i)⟩,
               te.rows.map fun e => getCell e.2 i),
              nData_stell_top_cut nCells)) := by
  unfold load_data at h
  cases hsp : splitTables iCells frac (mix seed entropy) with
  | error e => rw [hsp] at h; simp at h
  | ok p =>
      obtain ⟨tr, te⟩ := p
      rw [hsp] at h
      obtain ⟨htrc, htec, -, -⟩ := splitTables_inv hsp
      simp only [pop, htrc, htec] at h
      cases hf : ILLUSTRIS_COLUMN_NAMES.findIdx? (· == lbl) with
      | none => rw [hf] at h; simp at h
      | some i =>
          rw [hf] at h
          simp only [Except.ok.injEq] at h
          refine ⟨tr, te, i, rfl, rfl, ?_⟩
          exact h.symm

theorem sampleCount_error_gt {frac : ℚ} {len : Nat} (h : 1 < frac) :
    sampleCount frac len = .error
      "Replace has to be set to True when upsampling the population frac greater than 1" := by
  unfold sampleCount
  rw [if_pos h]

theorem sampleCount_error_neg {frac : ℚ} {len : Nat} (h1 : ¬1 < frac)
    (h2 : pyRound (frac * (len : ℚ)) < 0) :
    sampleCount frac len = .error "A negative number of rows requested" := by
  unfold sampleCount
  rw [if_neg h1]
  dsimp only
  rw [if_pos h2]

theorem sampleCount_ok {frac : ℚ} {len : Nat} (h1 : frac ≤ 1)
    (h2 : 0 ≤ pyRound (frac * (len : ℚ))) :
    sampleCount frac len = .ok (pyRound (frac * (len : ℚ))) := by
  unfold sampleCount
  rw [if_neg (not_lt.mpr h1)]
  dsimp only
  rw [if_neg (not_lt.mpr h2)]

theorem load_data_sampleCount_error {iCells nCells : List (List ℚ)} {lbl : String}
    {frac : ℚ} {seed : Option Nat} {entropy : Nat} {msg : String}
    (h : sampleCount frac (iData_halo_cut iCells).rows.length = .error msg) :
    load_data iCells nCells lbl frac seed entropy = .error msg := by
  simp only [load_data, splitTables, h]

theorem load_data_default_ok {iCells nCells : List (List ℚ)} {frac : ℚ}
    {seed : Option Nat} {entropy : Nat} {k : Int}
    (h : sampleCount frac (iData_halo_cut iCells).rows.length = .ok k) :
    (load_data iCells nCells "SubhaloMassInRad" frac seed entropy).toOption.isSome
      = true := by
  have hcols : (iData_halo_cut iCells).cols = ILLUSTRIS_COLUMN_NAMES := rfl
  have hfidx : ILLUSTRIS_COLUMN_NAMES.findIdx? (· == "SubhaloMassInRad") = some 15 := by
    with_unfolding_all rfl
  simp only [load_data, splitTables, h, pop, hcols, hfidx]
  rfl

theorem pyRound_nonneg {q : ℚ} (h : 0 ≤ q) : 0 ≤ pyRound q := by
  have hf : 0 ≤ q.floor := Rat.le_floor.mpr (by exact_mod_cast h)
  unfold pyRound
  dsimp only
  split
  · exact hf
  · split
    · omega
    · split <;> omega

theorem getElem?_zip_pair {α β : Type} :
    ∀ (l1 : List α) (l2 : List β) (i : Nat),
      (l1.zip l2)[i]? = l1[i]?.bind fun a => l2[i]?.map fun b => (a, b) := by
  intro l1
  induction l1 with
  | nil => intro l2 i; simp
  | cons a l ih =>
      intro l2 i
      cases l2 with
      | nil => simp
      | cons b l2 =>
          cases i with
          | zero => simp
          | succ n => simpa using ih l2 n

/-! Claim theorems. -/

/-- C1: every row of the filtered simulated table (the table the Train and
Test parts of `load_data` are drawn from) has corrected stellar mass
(raw `SubhaloMassInRadType4` minus `SubhaloWindMass`) ≥ 0 and halo mass
`SubhaloMassInRad` ≥ 0.1; on the worked example, the row with wind 2 and
raw stellar mass 5 is kept with corrected value 3, and the row with wind 6
and raw stellar mass 5 has corrected value -1 and is dropped. -/
theorem C1_filtered_invariant :
    (∀ (cells : List (List ℚ)) (e : Nat × List ℚ), e ∈ (iData_halo_cut cells).rows →
        0 ≤ getCell e.2 (colIdx (iTable cells) "SubhaloMassInRadType4") ∧
        1/10 ≤ getCell e.2 (colIdx (iTable cells) "SubhaloMassInRad")) ∧
    (iData_corrected exKeepDrop).rows.map
        (fun e => getCell e.2 (colIdx (iTable exKeepDrop) "SubhaloMassInRadType4"))
      = [3, -1] ∧
    (iData_halo_cut exKeepDrop).rows.map Prod.fst = [0] := by
  refine ⟨?_, ?_, ?_⟩
  · intro cells e he
    have h1 := mem_dropLT_rows.mp he
    have h2 := mem_dropLT_rows.mp h1.1
    exact ⟨h2.2, h1.2⟩
  · with_unfolding_all decide
  · with_unfolding_all decide

/-- C1 witness: the kept example row satisfies both bounds. -/
theorem C1_filtered_invariant_witness :
    0 ≤ getCell (mkIRow 3 2 1) (colIdx (iTable exKeepDrop) "SubhaloMassInRadType4") ∧
    1/10 ≤ getCell (mkIRow 3 2 1) (colIdx (iTable exKeepDrop) "SubhaloMassInRad") :=
  C1_filtered_invariant.1 exKeepDrop (0, mkIRow 3 2 1) (by with_unfolding_all decide)

/-- C3 (amended): every row of the survey table returned by `load_data`
has converted stellar mass in the half-open interval [1e-7, 150): at
least 1e-7 (equality is kept, so not strictly greater) and strictly less
than 150. -/
theorem C3_survey_bounds :
    ∀ (iCells nCells : List (List ℚ)) (lbl : String) (frac : ℚ) (seed : Option Nat)
      (entropy : Nat) (out : (Table × List ℚ) × (Table × List ℚ) × Table),
      load_data iCells nCells lbl frac seed entropy = .ok out →
      ∀ e ∈ out.2.2.rows,
        1 / 10 ^ 7 ≤ getCell e.2 (colIdx (nTable nCells) "SubhaloMassInRadType4") ∧
        getCell e.2 (colIdx (nTable nCells) "SubhaloMassInRadType4") < 150 := by
  intro iCells nCells lbl frac seed entropy out h e he
  obtain ⟨tr, te, i, hsp, hf, hout⟩ := load_data_inv h
  subst hout
  have h1 := mem_dropGE_rows.mp he
  have h2 := mem_dropLT_rows.mp h1.1
  exact ⟨h2.2, h1.2⟩

/-- C3 counterexample: a survey row with raw stellar mass 1000 converts to
exactly 1e-7 and is kept by `load_data`, but 1e-7 is not strictly greater
than 1e-7, so the open-interval claim fails. -/
theorem C3_survey_bounds_counterexample :
    (load_data [] [[0, 1000, 0, 0, 0]]).map (fun o => o.2.2.rows)
      = .ok [(0, [0, 1/10^7, 0, 0, 0])] ∧
    ¬(1/10^7 < getCell [0, 1/10^7, 0, 0, 0]
        (colIdx (nTable [[0, 1000, 0, 0, 0]]) "SubhaloMassInRadType4")) := by
  constructor
  · with_unfolding_all rfl
  · with_unfolding_all decide

/-- C3 witness: a concrete returned survey row satisfies the amended
bounds. -/
theorem C3_survey_bounds_witness :
    1 / 10 ^ 7 ≤ getCell [0, 2, 0, 0, 0]
        (colIdx (nTable [[0, 2 * 10 ^ 10, 0, 0, 0]]) "SubhaloMassInRadType4") ∧
    getCell [0, 2, 0, 0, 0]
        (colIdx (nTable [[0, 2 * 10 ^ 10, 0, 0, 0]]) "SubhaloMassInRadType4") < 150 :=
  C3_survey_bounds [] [[0, 2 * 10 ^ 10, 0, 0, 0]] "SubhaloMassInRad" (8/10) none 0 nExOut
    (by with_unfolding_all rfl) (0, [0, 2, 0, 0, 0]) (by with_unfolding_all decide)

/-- C4: with the same concrete seed and the same inputs and parameters,
two runs of `load_data` produce identical results: the entropy source,
consumed only when the seed is absent, does not influence the output. -/
theorem C4_seed_determinism :
    ∀ (iCells nCells : List (List ℚ)) (lbl : String) (frac : ℚ) (s e1 e2 : Nat),
      load_data iCells nCells lbl frac (some s) e1
        = load_data iCells nCells lbl frac (some s) e2 :=
  fun _ _ _ _ _ _ _ => rfl

/-- C6 counterexample: the Illustris schema list has 73 names, not the
claimed 71. -/
theorem C6_schema_counterexample :
    ILLUSTRIS_COLUMN_NAMES.length = 73 ∧ ¬ILLUSTRIS_COLUMN_NAMES.length = 71 := by
  decide

/-- C6 (amended): the Illustris schema has exactly 73 names (one pre-drop
row index column plus 72 physical columns) and the NYU schema exactly 5. -/
theorem C6_schema_sizes :
    ILLUSTRIS_COLUMN_NAMES.length = 73 ∧
    ILLUSTRIS_COLUMN_NAMES.headD "" = "Pre_Drop_Index" ∧
    NYU_COLUMN_NAMES.length = 5 := by
  with_unfolding_all decide

/-- C2: for every input and every seed (present or absent), the Train and
Test row-index sets returned by `load_data` are disjoint, and their union
is exactly the row-index set of the filtered simulated table: every
filtered row lands in exactly one of Train and Test. -/
theorem C2_train_test_partition :
    ∀ (iCells nCells : List (List ℚ)) (lbl : String) (frac : ℚ) (seed : Option Nat)
      (entropy : Nat) (out : (Table × List ℚ) × (Table × List ℚ) × Table),
      load_data iCells nCells lbl frac seed entropy = .ok out →
      (∀ idx, idx ∈ out.1.1.rows.map Prod.fst → idx ∉ out.2.1.1.rows.map Prod.fst) ∧
      (∀ idx, idx ∈ (iData_halo_cut iCells).rows.map Prod.fst ↔
          (idx ∈ out.1.1.rows.map Prod.fst ∨ idx ∈ out.2.1.1.rows.map Prod.fst)) := by
  intro iCells nCells lbl frac seed entropy out h
  obtain ⟨tr, te, i, hsp, hf, hout⟩ := load_data_inv h
  obtain ⟨-, -, ⟨k, htrR⟩, hteR⟩ := splitTables_inv hsp
  subst hout
  simp only [map_fst_reindex]
  constructor
  · intro idx hTr hTe
    rw [hteR, List.mem_map] at hTe
    obtain ⟨e, heF, heq⟩ := hTe
    rw [List.mem_filter] at heF
    have hnot : e.1 ∉ tr.rows.map Prod.fst := by simpa using heF.2
    rw [← heq] at hTr
    exact hnot hTr
  · intro idx
    constructor
    · intro hF
      by_cases hc : idx ∈ tr.rows.map Prod.fst
      · exact Or.inl hc
      · refine Or.inr ?_
        rw [hteR]
        rw [List.mem_map] at hF ⊢
        obtain ⟨e, heF, heq⟩ := hF
        refine ⟨e, ?_, heq⟩
        rw [List.mem_filter]
        refine ⟨heF, ?_⟩
        simp only [Bool.not_eq_true', decide_eq_false_iff_not]
        rw [heq]
        exact hc
    · intro hor
      rcases hor with hTr | hTe
      · rw [htrR] at hTr
        rw [List.mem_map] at hTr ⊢
        obtain ⟨e, heT, heq⟩ := hTr
        rw [List.mem_filterMap] at heT
        obtain ⟨p, -, hp⟩ := heT
        exact ⟨e, List.get?_mem hp, heq⟩
      · rw [hteR] at hTe
        rw [List.mem_map] at hTe ⊢
        obtain ⟨e, heT, heq⟩ := hTe
        rw [List.mem_filter] at heT
        exact ⟨e, heT.1, heq⟩

/-- C2 witness: the partition facts at a concrete successful run. -/
theorem C2_train_test_partition_witness :
    (∀ idx, idx ∈ exFullOut.1.1.rows.map Prod.fst →
        idx ∉ exFullOut.2.1.1.rows.map Prod.fst) ∧
    (∀ idx, idx ∈ (iData_halo_cut iPairEx).rows.map Prod.fst ↔
        (idx ∈ exFullOut.1.1.rows.map Prod.fst ∨
         idx ∈ exFullOut.2.1.1.rows.map Prod.fst)) :=
  C2_train_test_partition iPairEx [] "SubhaloMassInRad" 1 (some 0) 0 exFullOut
    (by with_unfolding_all rfl)

/-- C5 counterexample: under the Python default call, the popped label
column is `SubhaloMassInRad`, not `SubhaloMassInRadType4`: the Type4
column is still present in the returned Train feature table, and the
Train label holds the `SubhaloMassInRad` value 1, not the corrected
Type4 value 3. -/
theorem C5_default_label_counterexample :
    (load_data [mkIRow 5 2 1] []).map
        (fun o => (decide ("SubhaloMassInRadType4" ∈ o.1.1.cols), o.1.2))
      = .ok (true, [1]) ∧
    (iData_corrected [mkIRow 5 2 1]).rows.map
        (fun e => getCell e.2 (colIdx (iTable []) "SubhaloMassInRadType4")) = [3] := by
  constructor
  · with_unfolding_all rfl
  · with_unfolding_all decide

/-- C5 (amended): with the default `label_name = "SubhaloMassInRad"`, the
popped column is `SubhaloMassInRad`: it is absent from both returned
feature tables (while `SubhaloMassInRadType4` remains), and the i-th
label value and i-th feature row are both produced from the i-th pre-pop
split row, so they stay aligned. -/
theorem C5_default_label :
    ∀ (iCells nCells : List (List ℚ)) (frac : ℚ) (seed : Option Nat) (entropy : Nat)
      (out : (Table × List ℚ) × (Table × List ℚ) × Table) (tr te : Table),
      splitTables iCells frac (mix seed entropy) = .ok (tr, te) →
      load_data iCells nCells "SubhaloMassInRad" frac seed entropy = .ok out →
      ("SubhaloMassInRad" ∉ out.1.1.cols ∧ "SubhaloMassInRad" ∉ out.2.1.1.cols) ∧
      ("SubhaloMassInRadType4" ∈ out.1.1.cols ∧ "SubhaloMassInRadType4" ∈ out.2.1.1.cols) ∧
      out.1.2 = tr.rows.map
        (fun e => getCell e.2 (colIdx (iTable iCells) "SubhaloMassInRad")) ∧
      out.1.1.rows = tr.rows.map
        (fun e => (e.1, e.2.eraseIdx (colIdx (iTable iCells) "SubhaloMassInRad"))) ∧
      out.2.1.2 = te.rows.map
        (fun e => getCell e.2 (colIdx (iTable iCells) "SubhaloMassInRad")) ∧
      out.2.1.1.rows = te.rows.map
        (fun e => (e.1, e.2.eraseIdx (colIdx (iTable iCells) "SubhaloMassInRad"))) := by
  intro iCells nCells frac seed entropy out tr te hsp h
  obtain ⟨tr', te', i, hsp', hf, hout⟩ := load_data_inv h
  have hpair := hsp.symm.trans hsp'
  simp only [Except.ok.injEq, Prod.mk.injEq] at hpair
  obtain ⟨rfl, rfl⟩ := hpair
  have hfidx : ILLUSTRIS_COLUMN_NAMES.findIdx? (· == "SubhaloMassInRad") = some 15 := by
    with_unfolding_all rfl
  have hi : i = 15 := Option.some.inj (hf.symm.trans hfidx)
  subst hi
  subst hout
  refine ⟨⟨?_, ?_⟩, ⟨?_, ?_⟩, ?_, ?_, ?_, ?_⟩
  · show "SubhaloMassInRad" ∉ ILLUSTRIS_COLUMN_NAMES.eraseIdx 15
    with_unfolding_all decide
  · show "SubhaloMassInRad" ∉ ILLUSTRIS_COLUMN_NAMES.eraseIdx 15
    with_unfolding_all decide
  · show "SubhaloMassInRadType4" ∈ ILLUSTRIS_COLUMN_NAMES.eraseIdx 15
    with_unfolding_all decide
  · show "SubhaloMassInRadType4" ∈ ILLUSTRIS_COLUMN_NAMES.eraseIdx 15
    with_unfolding_all decide
  · with_unfolding_all rfl
  · with_unfolding_all rfl
  · with_unfolding_all rfl
  · with_unfolding_all rfl

/-- C5 witness: the amended facts at a concrete default-parameter run. -/
theorem C5_default_label_witness :
    ("SubhaloMassInRad" ∉ exTrainOut.1.1.cols ∧
     "SubhaloMassInRad" ∉ exTrainOut.2.1.1.cols) ∧
    ("SubhaloMassInRadType4" ∈ exTrainOut.1.1.cols ∧
     "SubhaloMassInRadType4" ∈ exTrainOut.2.1.1.cols) ∧
    exTrainOut.1.2 = exSplitPair.1.rows.map
      (fun e => getCell e.2 (colIdx (iTable [mkIRow 5 2 1]) "SubhaloMassInRad")) ∧
    exTrainOut.1.1.rows = exSplitPair.1.rows.map
      (fun e => (e.1, e.2.eraseIdx (colIdx (iTable [mkIRow 5 2 1]) "SubhaloMassInRad"))) ∧
    exTrainOut.2.1.2 = exSplitPair.2.rows.map
      (fun e => getCell e.2 (colIdx (iTable [mkIRow 5 2 1]) "SubhaloMassInRad")) ∧
    exTrainOut.2.1.1.rows = exSplitPair.2.rows.map
      (fun e => (e.1, e.2.eraseIdx (colIdx (iTable [mkIRow 5 2 1]) "SubhaloMassInRad"))) :=
  C5_default_label [mkIRow 5 2 1] [] (8/10) none 0 exTrainOut exSplitPair.1 exSplitPair.2
    (by with_unfolding_all rfl) (by with_unfolding_all rfl)

/-- C7 counterexample: `load_data` succeeds at `train_fraction = 0` and at
`train_fraction = 1`, both outside the open interval (0,1), instead of
failing as the claim requires. -/
theorem C7_fraction_counterexample :
    (load_data [] [] "SubhaloMassInRad" 0 none 0).toOption.isSome = true ∧
    (load_data [] [] "SubhaloMassInRad" 1 none 0).toOption.isSome = true := by
  constructor
  · with_unfolding_all rfl
  · with_unfolding_all rfl

/-- C7 (amended): `load_data` performs no `train_fraction` validation of
its own and raises no `InvalidParameterError`: with the default label it
succeeds exactly when the fraction is at most 1 and the rounded row count
`round(frac * n)` is nonnegative — in particular it succeeds at the
out-of-range boundary values 0 and 1 — and it fails only through the
sampling routine's own errors: the upsampling error when the fraction
exceeds 1, and the negative-row-count error when the rounded count is
negative (as at fraction -1 or -0.6 on a one-row filtered table). -/
theorem C7_fraction_validation :
    (∀ (iCells nCells : List (List ℚ)) (frac : ℚ) (seed : Option Nat) (entropy : Nat),
        (load_data iCells nCells "SubhaloMassInRad" frac seed entropy).toOption.isSome
            = true
          ↔ frac ≤ 1 ∧
            0 ≤ pyRound (frac * ((iData_halo_cut iCells).rows.length : ℚ))) ∧
    (∀ (iCells nCells : List (List ℚ)) (lbl : String) (frac : ℚ) (seed : Option Nat)
        (entropy : Nat),
        (1 < frac ∨ pyRound (frac * ((iData_halo_cut iCells).rows.length : ℚ)) < 0) →
        (load_data iCells nCells lbl frac seed entropy).toOption.isSome = false) ∧
    (∀ (iCells nCells : List (List ℚ)) (frac : ℚ) (seed : Option Nat) (entropy : Nat),
        0 ≤ frac → frac ≤ 1 →
        (load_data iCells nCells "SubhaloMassInRad" frac seed entropy).toOption.isSome
          = true) ∧
    (load_data [mkIRow 0 0 1] [] "SubhaloMassInRad" (-1) none 0).toOption.isSome
      = false ∧
    (load_data [mkIRow 0 0 1] [] "SubhaloMassInRad" (-6/10) none 0).toOption.isSome
      = false := by
  have hfail : ∀ (iCells nCells : List (List ℚ)) (lbl : String) (frac : ℚ)
      (seed : Option Nat) (entropy : Nat),
      (1 < frac ∨ pyRound (frac * ((iData_halo_cut iCells).rows.length : ℚ)) < 0) →
      (load_data iCells nCells lbl frac seed entropy).toOption.isSome = false := by
    intro iCells nCells lbl frac seed entropy h
    by_cases hgt : 1 < frac
    · rw [load_data_sampleCount_error (sampleCount_error_gt hgt)]
      rfl
    · rcases h with h | hneg
      · exact absurd h hgt
      · rw [load_data_sampleCount_error (sampleCount_error_neg hgt hneg)]
        rfl
  have hok : ∀ (iCells nCells : List (List ℚ)) (frac : ℚ) (seed : Option Nat)
      (entropy : Nat),
      frac ≤ 1 → 0 ≤ pyRound (frac * ((iData_halo_cut iCells).rows.length : ℚ)) →
      (load_data iCells nCells "SubhaloMassInRad" frac seed entropy).toOption.isSome
        = true := by
    intro iCells nCells frac seed entropy h1 h2
    exact load_data_default_ok (sampleCount_ok h1 h2)
  refine ⟨?_, hfail, ?_, ?_, ?_⟩
  · intro iCells nCells frac seed entropy
    constructor
    · intro hs
      by_cases hgt : 1 < frac
      · rw [hfail iCells nCells _ frac seed entropy (Or.inl hgt)] at hs
        simp at hs
      · refine ⟨not_lt.mp hgt, ?_⟩
        by_contra hneg
        push_neg at hneg
        rw [hfail iCells nCells _ frac seed entropy (Or.inr hneg)] at hs
        simp at hs
    · rintro ⟨h1, h2⟩
      exact hok iCells nCells frac seed entropy h1 h2
  · intro iCells nCells frac seed entropy h0 h1
    exact hok iCells nCells frac seed entropy h1
      (pyRound_nonneg (mul_nonneg h0 (Nat.cast_nonneg _)))
  · with_unfolding_all rfl
  · with_unfolding_all rfl

/-- C7 witness: the boundary value 0 satisfies the hypotheses and the run
succeeds. -/
theorem C7_fraction_validation_witness :
    (load_data [] [] "SubhaloMassInRad" 0 none 0).toOption.isSome = true :=
  C7_fraction_validation.2.2.1 [] [] 0 none 0 (le_refl 0) zero_le_one

/-- C8 (amended): on the worked survey rows, raw 2e10 converts to 2 and is
kept; raw 5e-6 converts to 5e-16, which is below the 1e-7 floor, so that
row is dropped (not kept as claimed); raw 2e12 converts to 200 and is
dropped. Only the first row survives. -/
theorem C8_survey_examples :
    (nData_conv nEx).rows.map
        (fun e => getCell e.2 (colIdx (nTable nEx) "SubhaloMassInRadType4"))
      = [2, 5/10^16, 200] ∧
    (nData_stell_top_cut nEx).rows.map Prod.fst = [0] ∧
    (1:ℚ)/10^7 ≤ 2 ∧ (2:ℚ) < 150 ∧
    (5:ℚ)/10^16 < 1/10^7 ∧ (150:ℚ) ≤ 200 := by
  refine ⟨?_, ?_, ?_, ?_, ?_, ?_⟩
  · with_unfolding_all rfl
  · with_unfolding_all rfl
  · with_unfolding_all decide
  · with_unfolding_all decide
  · with_unfolding_all decide
  · with_unfolding_all decide

/-- C8 counterexample: the survey row with raw stellar mass 5e-6 converts
to 5e-16, which is not within [1e-7, 150), and the row is dropped,
contradicting the claim that it is kept. -/
theorem C8_survey_examples_counterexample :
    (nData_conv [[0, 5/10^6, 0, 0, 0]]).rows.map
        (fun e => getCell e.2
          (colIdx (nTable [[0, 5/10^6, 0, 0, 0]]) "SubhaloMassInRadType4"))
      = [5/10^16] ∧
    ¬((1:ℚ)/10^7 ≤ 5/10^16) ∧
    (nData_stell_top_cut [[0, 5/10^6, 0, 0, 0]]).rows = [] := by
  refine ⟨?_, ?_, ?_⟩
  · with_unfolding_all rfl
  · with_unfolding_all decide
  · with_unfolding_all rfl

/-- C9: `make_dataset` on a table with N rows yields exactly N elements in
the original row order (the i-th element is built from the i-th row, and
from the i-th label value when a label sequence of length N is supplied);
being a pure value, re-iterating the sequence yields the same elements.
Without a label each element is just the column-name-to-scalar mapping;
with a label it also carries the scalar label. -/
theorem C9_make_dataset_elements :
    ∀ (t : Table) (ls : List ℚ), ls.length = t.rows.length →
      (make_dataset t none).length = t.rows.length ∧
      (make_dataset t (some ls)).length = t.rows.length ∧
      (∀ (i : Nat), (make_dataset t none)[i]?
          = t.rows[i]?.map fun e => DSElem.featOnly (t.cols.zip e.2)) ∧
      (∀ (i : Nat), (make_dataset t (some ls))[i]?
          = t.rows[i]?.bind fun e =>
              ls[i]?.map fun l => DSElem.featLab (t.cols.zip e.2) l) := by
  intro t ls h
  refine ⟨?_, ?_, ?_, ?_⟩
  · simp [make_dataset]
  · simp [make_dataset, List.length_zip, h]
  · intro i
    simp [make_dataset, List.getElem?_map]
  · intro i
    cases h1 : t.rows[i]? <;> cases h2 : ls[i]? <;>
      simp [make_dataset, List.getElem?_map, getElem?_zip_pair, h1, h2]

/-- C9 witness: the element facts at a concrete one-row table and
matching label sequence. -/
theorem C9_make_dataset_elements_witness :
    (make_dataset dsT none).length = dsT.rows.length ∧
    (make_dataset dsT (some dsL)).length = dsT.rows.length ∧
    (∀ (i : Nat), (make_dataset dsT none)[i]?
        = dsT.rows[i]?.map fun e => DSElem.featOnly (dsT.cols.zip e.2)) ∧
    (∀ (i : Nat), (make_dataset dsT (some dsL))[i]?
        = dsT.rows[i]?.bind fun e =>
            dsL[i]?.map fun l => DSElem.featLab (dsT.cols.zip e.2) l) :=
  C9_make_dataset_elements dsT dsL rfl

/-- C10: the Test feature rows returned by `load_data` are always an
order-preserving subsequence of the filtered simulated table, while the
Train rows come out in the sampler's draw order: on a concrete run with
seed 0 the Train indices are [1, 0], not a subsequence of the filtered
order [0, 1]. -/
theorem C10_row_order :
    (∀ (iCells nCells : List (List ℚ)) (lbl : String) (frac : ℚ) (seed : Option Nat)
        (entropy : Nat) (out : (Table × List ℚ) × (Table × List ℚ) × Table),
        load_data iCells nCells lbl frac seed entropy = .ok out →
        (out.2.1.1.rows.map Prod.fst).Sublist
          ((iData_halo_cut iCells).rows.map Prod.fst)) ∧
    ((load_data iPairEx [] "SubhaloMassInRad" 1 (some 0) 0).map
        (fun o => (o.1.1.rows.map Prod.fst,
          decide ((o.1.1.rows.map Prod.fst).Sublist
            ((iData_halo_cut iPairEx).rows.map Prod.fst))))
      = .ok ([1, 0], false)) := by
  constructor
  · intro iCells nCells lbl frac seed entropy out h
    obtain ⟨tr, te, i, hsp, hf, hout⟩ := load_data_inv h
    obtain ⟨-, -, -, hteR⟩ := splitTables_inv hsp
    subst hout
    simp only [map_fst_reindex]
    rw [hteR]
    exact (List.filter_sublist _).map Prod.fst
  · with_unfolding_all rfl

/-- C10 witness: the Test-order fact at a concrete successful run. -/
theorem C10_row_order_witness :
    (exFullOut.2.1.1.rows.map Prod.fst).Sublist
      ((iData_halo_cut iPairEx).rows.map Prod.fst) :=
  C10_row_order.1 iPairEx [] "SubhaloMassInRad" 1 (some 0) 0 exFullOut
    (by with_unfolding_all rfl)

end DMN
